import Mathlib

/-!
Shallow embedding of the session-layer node of 107-Arduino-Cyphal
(`src/Node.cpp`) and proofs about its subscription registry, transfer-id
allocation, ingress buffering, transfer dispatch and egress draining.

Modelling conventions:
* `std::map<CanardPortID, _>` members are embedded as association lists with
  unique keys (`mapLookup` / `mapInsert` / `mapErase` mirror `count`/`[]`,
  `operator[]` assignment and `erase`).
* The external libcanard codec is out of scope of the repository; its calls
  (`canardRxAccept`, `canardRxSubscribe`, `canardRxUnsubscribe`, the transmit
  function) are parameters: the embedded functions receive the codec's result
  as an argument, exactly where the C++ reads the external return value.
* Side effects that the C++ performs through opaque pointers (invoking a
  completion callback, `memory_free`, calling the transmit function) are
  recorded as an `Event` trace, so that "the callback is invoked", "the
  payload is released exactly once" and "the frame is transmitted" become
  statements about the trace.
* Machine integers (`CanardPortID`, `CanardTransferID`, timestamps, bytes)
  are embedded as `Nat`; the only place where overflow/wraparound matters is
  the transfer-id modulus, which the C++ takes explicitly
  (`% CANARD_TRANSFER_ID_MAX`).
-/

set_option autoImplicit false

namespace CyphalNode

/-- `CanardTransferKind` from the libcanard API: Message, Request, Response. -/
inductive CanardTransferKind where
  | Message
  | Request
  | Response
  deriving DecidableEq

/-- The metadata+payload of a fully reassembled transfer as produced by
`canardRxAccept` (`CanardRxTransfer`). The codec-owned payload pointer is an
opaque handle (`Nat`). -/
structure CanardRxTransfer where
  port_id : Nat
  transfer_kind : CanardTransferKind
  transfer_id : Nat
  payload : Nat
  deriving DecidableEq

/-- A raw CAN frame (`CanardFrame`): extended 29-bit identifier, a payload
size field and the payload bytes the pointer refers to. -/
structure CanardFrame where
  extended_can_id : Nat
  payload_size : Nat
  payload : List Nat
  deriving DecidableEq

/-- One element of `_canard_rx_queue`: the tuple
`(extended_can_id, payload_size, payload[8], rx_timestamp_us)` enqueued by
`onCanFrameReceived`. -/
structure RxQueueEntry where
  extended_can_id : Nat
  payload_size : Nat
  payload : List Nat
  timestamp_us : Nat
  deriving DecidableEq

/-- Lookup in an association-list map: the model of
`map.count(k) > 0 ? some (map[k]) : none`. -/
def mapLookup (k : Nat) : List (Nat × Nat) → Option Nat
  | [] => none
  | (k', v) :: rest => if k' = k then some v else mapLookup k rest

/-- Insertion/overwrite in an association-list map: the model of
`map[k] = v` on a `std::map` (replaces the value if the key is present,
appends a fresh entry otherwise). -/
def mapInsert (k v : Nat) : List (Nat × Nat) → List (Nat × Nat)
  | [] => [(k, v)]
  | (k', v') :: rest => if k' = k then (k, v) :: rest else (k', v') :: mapInsert k v rest

/-- Removal from an association-list map: the model of `map.erase(k)`. -/
def mapErase (k : Nat) : List (Nat × Nat) → List (Nat × Nat)
  | [] => []
  | (k', v') :: rest => if k' = k then mapErase k rest else (k', v') :: mapErase k rest

/-- The keys of an association-list map. -/
def mapKeys (m : List (Nat × Nat)) : List Nat :=
  m.map Prod.fst

/-- `CANARD_TRANSFER_ID_MAX` of the external libcanard dependency
(`2^CANARD_TRANSFER_ID_BIT_LENGTH - 1 = 31`): the modulus the C++ applies in
`getNextTransferId`. -/
def CANARD_TRANSFER_ID_MAX : Nat := 31

/-- The mutable state of a `Node` object that the embedded operations touch:
the registry `_rx_transfer_map` (port id ↦ registered completion callback,
the callback itself being an opaque handle), the allocator map
`_tx_transfer_map` (port id ↦ last issued transfer id), the ingress buffer
`_canard_rx_queue` and the egress queue `_canard_tx_queue` (frames as opaque
handles, head = highest priority, as exposed by `canardTxPeek`). -/
structure NodeState where
  node_id : Nat
  rx_transfer_map : List (Nat × Nat)
  tx_transfer_map : List (Nat × Nat)
  rx_queue : List RxQueueEntry
  tx_queue : List Nat
  deriving DecidableEq

/-- The state established by the `Node` constructor: empty maps and queues. -/
def NodeState.mk0 (node_id : Nat) : NodeState :=
  { node_id := node_id
    rx_transfer_map := []
    tx_transfer_map := []
    rx_queue := []
    tx_queue := [] }

/-- Observable side effects performed through opaque pointers. -/
inductive Event where
  /-- `canardRxAccept(&hdl, rx_timestamp_us, &frame, ...)` was called. -/
  | codecAccept (frame : CanardFrame) (rx_timestamp_us : Nat)
  /-- A registered completion callback was invoked on a transfer. -/
  | callbackInvoke (callback : Nat) (transfer : CanardRxTransfer)
  /-- `unsubscribe(kind, port_id)` was called (by the dispatcher). -/
  | unsubscribeCall (kind : CanardTransferKind) (port_id : Nat)
  /-- `memory_free` released an opaque pointer. -/
  | memFree (pointer : Nat)
  /-- The transmit function was invoked on an egress frame. -/
  | transmitCall (frame : Nat)
  deriving DecidableEq

/-- `Node::unsubscribe`: calls `canardRxUnsubscribe` (external; its result is
the parameter `codec_result`), erases the registry entry unconditionally, and
returns `result >= 0`. -/
def unsubscribe (codec_result : Int) (_transfer_kind : CanardTransferKind)
    (port_id : Nat) (s : NodeState) : NodeState × Bool :=
  ({ s with rx_transfer_map := mapErase port_id s.rx_transfer_map },
   decide (0 ≤ codec_result))

/-- `Node::subscribe`: stores the callback into
`_rx_transfer_map[port_id].transfer_complete_callback`, then calls
`canardRxSubscribe` (external; its result is the parameter `codec_result`)
and returns `result >= 0`. The registry entry is written before the codec
call and is not rolled back on failure. -/
def subscribe (codec_result : Int) (_transfer_kind : CanardTransferKind)
    (port_id : Nat) (_payload_size_max : Nat) (func : Nat)
    (s : NodeState) : NodeState × Bool :=
  ({ s with rx_transfer_map := mapInsert port_id func s.rx_transfer_map },
   decide (0 ≤ codec_result))

/-- `Node::getNextTransferId`: `0` for an unseen port, otherwise
`(previous + 1) % CANARD_TRANSFER_ID_MAX`; the returned value is stored back
into `_tx_transfer_map[port_id]`. -/
def getNextTransferId (port_id : Nat) (s : NodeState) : Nat × NodeState :=
  let next_transfer_id :=
    match mapLookup port_id s.tx_transfer_map with
    | some prev => (prev + 1) % CANARD_TRANSFER_ID_MAX
    | none => 0
  (next_transfer_id,
   { s with tx_transfer_map := mapInsert port_id next_transfer_id s.tx_transfer_map })

/-- `Node::onCanFrameReceived`: builds an 8-byte buffer, zero-fills it, copies
`min(payload_size, 8)` bytes of the frame payload into it (`memcpy`), and
enqueues `(extended_can_id, payload_size, payload, rx_timestamp_us)` at the
tail of `_canard_rx_queue`. Byte `i` of the buffer is the frame's byte `i`
when `i < min(payload_size, 8)` and `0` otherwise. -/
def onCanFrameReceived (frame : CanardFrame) (rx_timestamp_us : Nat)
    (s : NodeState) : NodeState :=
  let m := min frame.payload_size 8
  let b := fun i => if i < m then frame.payload.getD i 0 else 0
  let payload8 := [b 0, b 1, b 2, b 3, b 4, b 5, b 6, b 7]
  { s with rx_queue :=
      s.rx_queue ++ [⟨frame.extended_can_id, frame.payload_size, payload8, rx_timestamp_us⟩] }

/-- `Node::receiveOne`: feeds the frame to `canardRxAccept` (external; its
result — `some transfer` exactly when the C++ result is `1` — is the
parameter `accept_result`). On a completed transfer: look up the registry;
for a `Response`, invoke the callback and call
`unsubscribe(Response, port_id)` only when `_tx_transfer_map` holds a record
for the port equal to the incoming transfer id; for other kinds invoke the
callback directly; in every branch free the codec-owned payload exactly once
afterwards. The `canardRxUnsubscribe` result inside the dispatcher's
`unsubscribe` call is discarded by the C++, so `0` is passed for it here
(the state effect of `unsubscribe` does not depend on it). -/
def receiveOne (accept_result : Option CanardRxTransfer) (frame : CanardFrame)
    (rx_timestamp_us : Nat) (s : NodeState) : NodeState × List Event :=
  let ev0 := [Event.codecAccept frame rx_timestamp_us]
  match accept_result with
  | none => (s, ev0)
  | some transfer =>
    match mapLookup transfer.port_id s.rx_transfer_map with
    | none => (s, ev0 ++ [Event.memFree transfer.payload])
    | some transfer_received_func =>
      if transfer.transfer_kind = CanardTransferKind.Response then
        match mapLookup transfer.port_id s.tx_transfer_map with
        | some recorded_id =>
          if recorded_id = transfer.transfer_id then
            let s' := (unsubscribe 0 CanardTransferKind.Response transfer.port_id s).1
            (s', ev0 ++ [Event.callbackInvoke transfer_received_func transfer,
                         Event.unsubscribeCall CanardTransferKind.Response transfer.port_id,
                         Event.memFree transfer.payload])
          else
            (s, ev0 ++ [Event.memFree transfer.payload])
        | none => (s, ev0 ++ [Event.memFree transfer.payload])
      else
        (s, ev0 ++ [Event.callbackInvoke transfer_received_func transfer,
                    Event.memFree transfer.payload])

/-- The `CanardFrame` that `Node::handle_receive` rebuilds from a dequeued
ingress entry (id, size field and payload buffer; the stored arrival
timestamp is *not* part of it). -/
def frameOfEntry (e : RxQueueEntry) : CanardFrame :=
  ⟨e.extended_can_id, e.payload_size, e.payload⟩

/-- The loop body of `Node::handle_receive`, processing the dequeued entries
in FIFO order. `micros k` is the value the `k`-th call of `micros()` returns
and `accept k` the result of the `k`-th `canardRxAccept` call (both
external). The C++ passes `micros()` — not the entry's stored arrival
timestamp — to `receiveOne`. -/
def handleReceiveGo (micros : Nat → Nat) (accept : Nat → Option CanardRxTransfer) :
    Nat → List RxQueueEntry → NodeState → NodeState × List Event
  | _, [], s => (s, [])
  | k, e :: rest, s =>
    let (s1, ev1) := receiveOne (accept k) (frameOfEntry e) (micros k) s
    let (s2, ev2) := handleReceiveGo micros accept (k + 1) rest s1
    (s2, ev1 ++ ev2)

/-- `Node::handle_receive`: dequeue every buffered frame in arrival order and
run `receiveOne(frame, micros())` on each until the ingress buffer is
empty. -/
def handle_receive (micros : Nat → Nat) (accept : Nat → Option CanardRxTransfer)
    (s : NodeState) : NodeState × List Event :=
  handleReceiveGo micros accept 0 s.rx_queue { s with rx_queue := [] }

/-- `Node::transmitOne`: returns `false` when no transmit function is set;
otherwise peeks the head of the egress queue (`canardTxPeek`; `false` when
empty), invokes the transmit function on it; on failure returns `false`
leaving the queue untouched; on success pops the frame (`canardTxPop`),
frees it and returns `true`. -/
def transmitOne (transmit_func : Option (Nat → Bool)) (s : NodeState) :
    NodeState × Bool × List Event :=
  match transmit_func with
  | none => (s, false, [])
  | some f =>
    match s.tx_queue with
    | [] => (s, false, [])
    | fr :: rest =>
      if f fr then
        ({ s with tx_queue := rest }, true, [Event.transmitCall fr, Event.memFree fr])
      else
        (s, false, [Event.transmitCall fr])

/-- The `while (transmitOne()) { }` loop of `Node::handle_transmit`, with an
explicit fuel; every `true` iteration shrinks the egress queue by one frame,
so fuel `= |tx_queue|` reproduces the loop exactly. -/
def handleTransmitGo (transmit_func : Option (Nat → Bool)) :
    Nat → NodeState → NodeState × List Event
  | 0, s => (s, [])
  | fuel + 1, s =>
    let (s1, ok, ev1) := transmitOne transmit_func s
    if ok then
      let (s2, ev2) := handleTransmitGo transmit_func fuel s1
      (s2, ev1 ++ ev2)
    else
      (s1, ev1)

/-- `Node::handle_transmit`: drain the egress queue one frame at a time until
`transmitOne` reports `false` (queue empty, no transmit function, or
transport busy). -/
def handle_transmit (transmit_func : Option (Nat → Bool)) (s : NodeState) :
    NodeState × List Event :=
  handleTransmitGo transmit_func s.tx_queue.length s

/-- `Node::spin`: `handle_receive()` then `handle_transmit()`. -/
def spin (micros : Nat → Nat) (accept : Nat → Option CanardRxTransfer)
    (transmit_func : Option (Nat → Bool)) (s : NodeState) : NodeState × List Event :=
  let (s1, ev1) := handle_receive micros accept s
  let (s2, ev2) := handle_transmit transmit_func s1
  (s2, ev1 ++ ev2)

/-- Whether an event is a completion-callback invocation. -/
def Event.isCallbackInvoke : Event → Bool
  | .callbackInvoke _ _ => true
  | _ => false

/-- Whether an event is a `memory_free` release. -/
def Event.isMemFree : Event → Bool
  | .memFree _ => true
  | _ => false

theorem mapLookup_insert_self (k v : Nat) (m : List (Nat × Nat)) :
    mapLookup k (mapInsert k v m) = some v := by
  induction m with
  | nil => simp [mapInsert, mapLookup]
  | cons hd tl ih =>
    obtain ⟨k', v'⟩ := hd
    by_cases h : k' = k
    · simp [mapInsert, mapLookup, h]
    · simp [mapInsert, mapLookup, h, ih]

theorem mapLookup_insert_ne (k k' v : Nat) (m : List (Nat × Nat)) (h : k' ≠ k) :
    mapLookup k (mapInsert k' v m) = mapLookup k m := by
  induction m with
  | nil => simp [mapInsert, mapLookup, h]
  | cons hd tl ih =>
    obtain ⟨a, b⟩ := hd
    by_cases ha : a = k'
    · simp [mapInsert, mapLookup, ha, h]
    · simp only [mapInsert, if_neg ha, mapLookup]
      by_cases hk : a = k
      · simp [hk]
      · simp [hk, ih]

theorem mapLookup_erase_self (k : Nat) (m : List (Nat × Nat)) :
    mapLookup k (mapErase k m) = none := by
  induction m with
  | nil => simp [mapErase, mapLookup]
  | cons hd tl ih =>
    obtain ⟨a, b⟩ := hd
    by_cases ha : a = k
    · simp [mapErase, ha, ih]
    · simp [mapErase, mapLookup, ha, ih]

theorem mapLookup_erase_ne (k k' : Nat) (m : List (Nat × Nat)) (h : k' ≠ k) :
    mapLookup k (mapErase k' m) = mapLookup k m := by
  induction m with
  | nil => simp [mapErase]
  | cons hd tl ih =>
    obtain ⟨a, b⟩ := hd
    by_cases ha : a = k'
    · subst ha
      simp [mapErase, mapLookup, h, ih]
    · simp only [mapErase, if_neg ha, mapLookup]
      by_cases hk : a = k
      · simp [hk]
      · simp [hk, ih]

/-- C6: `unsubscribe(kind, P)` removes `P` from the registry unconditionally —
whatever `canardRxUnsubscribe` returned — and the returned boolean is `true`
exactly when the codec deregistration result is nonnegative. -/
theorem unsubscribe_removes_entry_unconditionally (codec_result : Int)
    (transfer_kind : CanardTransferKind) (port_id : Nat) (s : NodeState) :
    mapLookup port_id
        (unsubscribe codec_result transfer_kind port_id s).1.rx_transfer_map = none
    ∧ ((unsubscribe codec_result transfer_kind port_id s).2 = true ↔ 0 ≤ codec_result) := by
  refine ⟨mapLookup_erase_self _ _, ?_⟩
  simp [unsubscribe]

/-- C9: `onCanFrameReceived` appends one ingress entry whose `payload_size`
field is the frame's original size, whose buffer has exactly 8 bytes, and
whose byte `i` is the frame's byte `i` for `i < min(payload_size, 8)` and `0`
otherwise — a frame larger than 8 bytes is enqueued truncated with an
unmodified length field. -/
theorem onCanFrameReceived_truncates_payload (frame : CanardFrame)
    (rx_timestamp_us : Nat) (s : NodeState) :
    ∃ e : RxQueueEntry,
      (onCanFrameReceived frame rx_timestamp_us s).rx_queue = s.rx_queue ++ [e]
      ∧ e.payload_size = frame.payload_size
      ∧ e.timestamp_us = rx_timestamp_us
      ∧ e.payload.length = 8
      ∧ ∀ i : Fin 8, e.payload.getD i 0 =
          if (i : Nat) < min frame.payload_size 8 then frame.payload.getD i 0 else 0 := by
  refine ⟨_, rfl, rfl, rfl, rfl, ?_⟩
  intro i
  fin_cases i <;> rfl

/-- C10: `subscribe` writes the callback into the registry before calling
`canardRxSubscribe`; when the codec rejects the registration (negative
result) the call returns `false` yet the registry entry for the port still
exists and holds the callback. -/
theorem subscribe_keeps_entry_on_codec_failure (codec_result : Int)
    (transfer_kind : CanardTransferKind) (port_id payload_size_max func : Nat)
    (s : NodeState) (h : codec_result < 0) :
    (subscribe codec_result transfer_kind port_id payload_size_max func s).2 = false
    ∧ mapLookup port_id
        (subscribe codec_result transfer_kind port_id payload_size_max func s).1.rx_transfer_map
      = some func := by
  refine ⟨?_, mapLookup_insert_self _ _ _⟩
  simp only [subscribe, decide_eq_false_iff_not]
  omega

theorem subscribe_keeps_entry_on_codec_failure_witness :
    (subscribe (-1) CanardTransferKind.Message 7 12 3 (NodeState.mk0 0)).2 = false
    ∧ mapLookup 7
        (subscribe (-1) CanardTransferKind.Message 7 12 3 (NodeState.mk0 0)).1.rx_transfer_map
      = some 3 :=
  subscribe_keeps_entry_on_codec_failure (-1) CanardTransferKind.Message 7 12 3
    (NodeState.mk0 0) (by decide)

/-- C1: on a subscribed port, a reassembled `Response` invokes the callback
and immediately afterwards calls `unsubscribe(Response, port)` exactly when a
pending-request record exists with the same transfer id; otherwise it is
discarded with no callback and the subscription stays registered. -/
theorem receiveOne_response_correlation (t : CanardRxTransfer) (frame : CanardFrame)
    (rx_timestamp_us : Nat) (s : NodeState) (cb : Nat)
    (hsub : mapLookup t.port_id s.rx_transfer_map = some cb)
    (hkind : t.transfer_kind = CanardTransferKind.Response) :
    (mapLookup t.port_id s.tx_transfer_map = some t.transfer_id →
       (receiveOne (some t) frame rx_timestamp_us s).2
         = [Event.codecAccept frame rx_timestamp_us,
            Event.callbackInvoke cb t,
            Event.unsubscribeCall CanardTransferKind.Response t.port_id,
            Event.memFree t.payload]
       ∧ mapLookup t.port_id
           (receiveOne (some t) frame rx_timestamp_us s).1.rx_transfer_map = none)
    ∧ (mapLookup t.port_id s.tx_transfer_map ≠ some t.transfer_id →
       (receiveOne (some t) frame rx_timestamp_us s).2
         = [Event.codecAccept frame rx_timestamp_us, Event.memFree t.payload]
       ∧ mapLookup t.port_id
           (receiveOne (some t) frame rx_timestamp_us s).1.rx_transfer_map = some cb) := by
  constructor
  · intro hmatch
    simp [receiveOne, hsub, hkind, hmatch, unsubscribe, mapLookup_erase_self]
  · intro hne
    cases hm : mapLookup t.port_id s.tx_transfer_map with
    | none => simp [receiveOne, hsub, hkind, hm]
    | some rid =>
      rw [hm] at hne
      have hid : rid ≠ t.transfer_id := by simpa using hne
      simp [receiveOne, hsub, hkind, hm, hid]

/-- A node state with one registered subscription on port 7 (callback 1) and
a pending-request record on port 7 with transfer id 5. -/
def sampleResponseState : NodeState :=
  { NodeState.mk0 0 with rx_transfer_map := [(7, 1)], tx_transfer_map := [(7, 5)] }

theorem receiveOne_response_correlation_witness :
    (receiveOne (some ⟨7, CanardTransferKind.Response, 5, 99⟩) ⟨0, 0, []⟩ 2
        sampleResponseState).2
      = [Event.codecAccept ⟨0, 0, []⟩ 2,
         Event.callbackInvoke 1 ⟨7, CanardTransferKind.Response, 5, 99⟩,
         Event.unsubscribeCall CanardTransferKind.Response 7,
         Event.memFree 99]
    ∧ mapLookup 7
        (receiveOne (some ⟨7, CanardTransferKind.Response, 5, 99⟩) ⟨0, 0, []⟩ 2
            sampleResponseState).1.rx_transfer_map = none :=
  (receiveOne_response_correlation ⟨7, CanardTransferKind.Response, 5, 99⟩ ⟨0, 0, []⟩ 2
      sampleResponseState 1 (by decide) rfl).1 (by decide)

/-- C3: whichever dispatch branch runs, a reassembled transfer's codec-owned
payload is freed exactly once, the callback is invoked at most once, and a
transfer on a port with no registered subscription invokes no callback. -/
theorem receiveOne_frees_once (t : CanardRxTransfer) (frame : CanardFrame)
    (rx_timestamp_us : Nat) (s : NodeState) :
    ((receiveOne (some t) frame rx_timestamp_us s).2.filter Event.isMemFree
       = [Event.memFree t.payload])
    ∧ ((receiveOne (some t) frame rx_timestamp_us s).2.filter Event.isCallbackInvoke).length ≤ 1
    ∧ (mapLookup t.port_id s.rx_transfer_map = none →
       (receiveOne (some t) frame rx_timestamp_us s).2.filter Event.isCallbackInvoke = []) := by
  cases hsub : mapLookup t.port_id s.rx_transfer_map with
  | none => simp [receiveOne, hsub, Event.isMemFree, Event.isCallbackInvoke]
  | some cb =>
    by_cases hkind : t.transfer_kind = CanardTransferKind.Response
    · cases hm : mapLookup t.port_id s.tx_transfer_map with
      | none =>
        simp [receiveOne, hsub, hkind, hm, Event.isMemFree, Event.isCallbackInvoke]
      | some rid =>
        by_cases hid : rid = t.transfer_id
        · simp [receiveOne, hsub, hkind, hm, hid, Event.isMemFree, Event.isCallbackInvoke]
        · simp [receiveOne, hsub, hkind, hm, hid, Event.isMemFree, Event.isCallbackInvoke]
    · simp [receiveOne, hsub, hkind, Event.isMemFree, Event.isCallbackInvoke]

theorem receiveOne_frees_once_witness :
    (receiveOne (some ⟨7, CanardTransferKind.Message, 0, 99⟩) ⟨0, 0, []⟩ 2
        (NodeState.mk0 0)).2.filter Event.isCallbackInvoke = [] :=
  (receiveOne_frees_once ⟨7, CanardTransferKind.Message, 0, 99⟩ ⟨0, 0, []⟩ 2
      (NodeState.mk0 0)).2.2 (by decide)

/-- Run a sequence of `getNextTransferId` calls (one per listed port),
collecting the `(port, returned transfer id)` pairs in call order. -/
def runTransferIdCalls : List Nat → NodeState → List (Nat × Nat) × NodeState
  | [], s => ([], s)
  | p :: rest, s =>
    let (tid, s') := getNextTransferId p s
    let (trace, s'') := runTransferIdCalls rest s'
    ((p, tid) :: trace, s'')

/-- The transfer ids returned for port `P`, in call order. -/
def traceFor (P : Nat) (trace : List (Nat × Nat)) : List Nat :=
  (trace.filter (fun pr => pr.1 == P)).map Prod.snd

theorem mod_add_one_add (a k M : Nat) :
    (a % M + 1 + k) % M = (a + 1 + k) % M := by
  rw [Nat.add_assoc, Nat.mod_add_mod, ← Nat.add_assoc]

theorem runTransferIdCalls_from (ops : List Nat) (P : Nat) :
    ∀ (v : Nat) (s : NodeState), mapLookup P s.tx_transfer_map = some v →
    traceFor P (runTransferIdCalls ops s).1
      = (List.range (ops.count P)).map (fun k => (v + 1 + k) % CANARD_TRANSFER_ID_MAX) := by
  induction ops with
  | nil => intro v s _; simp [runTransferIdCalls, traceFor]
  | cons p rest ih =>
    intro v s h
    by_cases hp : p = P
    · subst hp
      have hnext :
          runTransferIdCalls (p :: rest) s
            = (((p, (v + 1) % CANARD_TRANSFER_ID_MAX) ::
                  (runTransferIdCalls rest
                    { s with tx_transfer_map :=
                        mapInsert p ((v + 1) % CANARD_TRANSFER_ID_MAX) s.tx_transfer_map }).1),
               (runTransferIdCalls rest
                  { s with tx_transfer_map :=
                      mapInsert p ((v + 1) % CANARD_TRANSFER_ID_MAX) s.tx_transfer_map }).2) := by
        simp [runTransferIdCalls, getNextTransferId, h]
      have htail := ih ((v + 1) % CANARD_TRANSFER_ID_MAX)
        { s with tx_transfer_map :=
            mapInsert p ((v + 1) % CANARD_TRANSFER_ID_MAX) s.tx_transfer_map }
        (mapLookup_insert_self _ _ _)
      rw [hnext]
      simp only [traceFor] at htail ⊢
      simp only [List.filter_cons, beq_self_eq_true, if_true, List.map_cons, htail,
        List.count_cons_self, List.range_succ_eq_map, List.map_map]
      congr 1
      apply List.map_congr_left
      intro a _
      simp only [Function.comp_apply]
      rw [mod_add_one_add]
      congr 1
      omega
    · have hp' : (p == P) = false := by simpa using hp
      have hnext :
          (runTransferIdCalls (p :: rest) s).1
            = (p, (getNextTransferId p s).1) :: (runTransferIdCalls rest (getNextTransferId p s).2).1 := by
        simp [runTransferIdCalls]
      have hpres : mapLookup P (getNextTransferId p s).2.tx_transfer_map = some v := by
        simpa [getNextTransferId] using (mapLookup_insert_ne P p _ s.tx_transfer_map hp).symm ▸ h
      have htail := ih v (getNextTransferId p s).2 hpres
      rw [hnext]
      simp only [traceFor, List.filter_cons, hp', if_neg Bool.false_ne_true]
      rw [traceFor] at htail
      rw [htail, List.count_cons_of_ne (by simpa using (Ne.symm hp))]

theorem runTransferIdCalls_fresh (ops : List Nat) (P : Nat) :
    ∀ s : NodeState, mapLookup P s.tx_transfer_map = none →
    traceFor P (runTransferIdCalls ops s).1
      = (List.range (ops.count P)).map (fun k => k % CANARD_TRANSFER_ID_MAX) := by
  induction ops with
  | nil => intro s _; simp [runTransferIdCalls, traceFor]
  | cons p rest ih =>
    intro s h
    by_cases hp : p = P
    · subst hp
      have hnext :
          runTransferIdCalls (p :: rest) s
            = ((p, 0) ::
                 (runTransferIdCalls rest
                   { s with tx_transfer_map := mapInsert p 0 s.tx_transfer_map }).1,
               (runTransferIdCalls rest
                   { s with tx_transfer_map := mapInsert p 0 s.tx_transfer_map }).2) := by
        simp [runTransferIdCalls, getNextTransferId, h]
      have htail := runTransferIdCalls_from rest p 0
        { s with tx_transfer_map := mapInsert p 0 s.tx_transfer_map }
        (mapLookup_insert_self _ _ _)
      rw [hnext]
      simp only [traceFor] at htail ⊢
      simp only [List.filter_cons, beq_self_eq_true, if_true, List.map_cons, htail,
        List.count_cons_self, List.range_succ_eq_map, List.map_map]
      congr 1
      apply List.map_congr_left
      intro a _
      simp only [Function.comp_apply]
      congr 1
      omega
    · have hp' : (p == P) = false := by simpa using hp
      have hnext :
          (runTransferIdCalls (p :: rest) s).1
            = (p, (getNextTransferId p s).1) ::
                (runTransferIdCalls rest (getNextTransferId p s).2).1 := by
        simp [runTransferIdCalls]
      have hpres : mapLookup P (getNextTransferId p s).2.tx_transfer_map = none := by
        simpa [getNextTransferId] using (mapLookup_insert_ne P p _ s.tx_transfer_map hp).symm ▸ h
      have htail := ih (getNextTransferId p s).2 hpres
      rw [hnext]
      simp only [traceFor, List.filter_cons, hp', if_neg Bool.false_ne_true]
      rw [traceFor] at htail
      rw [htail, List.count_cons_of_ne (by simpa using (Ne.symm hp))]

/-- C2: starting from the freshly constructed node, the values
`getNextTransferId(P)` returns across any interleaved call sequence are
`0, 1, 2, …` reduced `% CANARD_TRANSFER_ID_MAX`, i.e. the k-th call for port
`P` returns `k % CANARD_TRANSFER_ID_MAX` however many calls for other ports
are interleaved; the operation is total (no failure mode). -/
theorem getNextTransferId_sequence (ops : List Nat) (P node_id : Nat) :
    traceFor P (runTransferIdCalls ops (NodeState.mk0 node_id)).1
      = (List.range (ops.count P)).map (fun k => k % CANARD_TRANSFER_ID_MAX) :=
  runTransferIdCalls_fresh ops P (NodeState.mk0 node_id) rfl

theorem mapInsert_cons_self (k v b : Nat) (tl : List (Nat × Nat)) :
    mapInsert k v ((k, b) :: tl) = (k, v) :: tl := by
  simp [mapInsert]

theorem mapInsert_cons_ne (k v a b : Nat) (tl : List (Nat × Nat)) (h : a ≠ k) :
    mapInsert k v ((a, b) :: tl) = (a, b) :: mapInsert k v tl := by
  simp [mapInsert, h]

theorem mem_mapKeys_insert (x k v : Nat) (m : List (Nat × Nat)) :
    x ∈ mapKeys (mapInsert k v m) ↔ x = k ∨ x ∈ mapKeys m := by
  induction m with
  | nil => simp [mapInsert, mapKeys]
  | cons hd tl ih =>
    obtain ⟨a, b⟩ := hd
    by_cases ha : a = k
    · subst ha
      rw [mapInsert_cons_self]
      simp only [mapKeys, List.map_cons, List.mem_cons]
      tauto
    · rw [mapInsert_cons_ne k v a b tl ha]
      simp only [mapKeys, List.map_cons, List.mem_cons] at ih ⊢
      rw [ih]
      tauto

theorem mapKeys_nodup_insert (k v : Nat) (m : List (Nat × Nat))
    (h : (mapKeys m).Nodup) : (mapKeys (mapInsert k v m)).Nodup := by
  induction m with
  | nil => simp [mapInsert, mapKeys]
  | cons hd tl ih =>
    obtain ⟨a, b⟩ := hd
    simp only [mapKeys, List.map_cons, List.nodup_cons] at h
    obtain ⟨hna, hnd⟩ := h
    by_cases ha : a = k
    · subst ha
      rw [mapInsert_cons_self]
      simp only [mapKeys, List.map_cons, List.nodup_cons]
      exact ⟨hna, hnd⟩
    · rw [mapInsert_cons_ne k v a b tl ha]
      simp only [mapKeys, List.map_cons, List.nodup_cons]
      refine ⟨?_, ih hnd⟩
      intro hmem
      rcases (mem_mapKeys_insert a k v tl).1 (by simpa [mapKeys] using hmem) with rfl | hmem'
      · exact ha rfl
      · exact hna (by simpa [mapKeys] using hmem')

theorem mapErase_eq_filter (k : Nat) (m : List (Nat × Nat)) :
    mapErase k m = m.filter (fun e => !(e.1 == k)) := by
  induction m with
  | nil => rfl
  | cons hd tl ih =>
    obtain ⟨a, b⟩ := hd
    by_cases ha : a = k <;> simp [mapErase, ha, List.filter_cons, ih]

theorem mapKeys_nodup_erase (k : Nat) (m : List (Nat × Nat))
    (h : (mapKeys m).Nodup) : (mapKeys (mapErase k m)).Nodup := by
  rw [mapErase_eq_filter]
  simp only [mapKeys] at h ⊢
  exact List.Nodup.sublist ((List.filter_sublist m).map Prod.fst) h

/-- One call in a subscribe/unsubscribe sequence, carrying the (external)
codec result the call observed. -/
inductive RegOp where
  | sub (codec_result : Int) (kind : CanardTransferKind)
      (port_id payload_size_max func : Nat)
  | unsub (codec_result : Int) (kind : CanardTransferKind) (port_id : Nat)
  deriving DecidableEq

/-- The port a registry operation addresses. -/
def RegOp.port : RegOp → Nat
  | .sub _ _ p _ _ => p
  | .unsub _ _ p => p

/-- The state effect of one registry operation. -/
def applyRegOp (op : RegOp) (s : NodeState) : NodeState :=
  match op with
  | .sub r k p sz f => (subscribe r k p sz f s).1
  | .unsub r k p => (unsubscribe r k p s).1

/-- The state after a sequence of subscribe/unsubscribe calls. -/
def applyRegOps : List RegOp → NodeState → NodeState
  | [], s => s
  | op :: rest, s => applyRegOps rest (applyRegOp op s)

/-- The most recent operation in the sequence that addresses port `P`. -/
def lastOpOn (P : Nat) : List RegOp → Option RegOp
  | [] => none
  | op :: rest =>
    match lastOpOn P rest with
    | some o => some o
    | none => if op.port = P then some op else none

/-- The registry content for a port predicted from the most recent operation
on it: the callback of the most recent `subscribe`, nothing after an
`unsubscribe`, and the prior content when the port was never addressed. -/
def registryAfter (prev : Option Nat) : Option RegOp → Option Nat
  | some (.sub _ _ _ _ f) => some f
  | some (.unsub _ _ _) => none
  | none => prev

theorem applyRegOps_lookup (ops : List RegOp) (P : Nat) :
    ∀ s : NodeState,
    mapLookup P (applyRegOps ops s).rx_transfer_map
      = registryAfter (mapLookup P s.rx_transfer_map) (lastOpOn P ops) := by
  induction ops with
  | nil => intro s; simp [applyRegOps, lastOpOn, registryAfter]
  | cons op rest ih =>
    intro s
    have hstep : applyRegOps (op :: rest) s = applyRegOps rest (applyRegOp op s) := rfl
    rw [hstep, ih (applyRegOp op s)]
    cases hl : lastOpOn P rest with
    | some o => cases o <;> simp [lastOpOn, hl, registryAfter]
    | none =>
      by_cases hp : op.port = P
      · cases op with
        | sub r k p sz f =>
          have hpP : p = P := hp
          subst hpP
          simp [lastOpOn, hl, hp, registryAfter, applyRegOp, subscribe,
            mapLookup_insert_self]
        | unsub r k p =>
          have hpP : p = P := hp
          subst hpP
          simp [lastOpOn, hl, hp, registryAfter, applyRegOp, unsubscribe,
            mapLookup_erase_self]
      · have hlookup :
            mapLookup P (applyRegOp op s).rx_transfer_map
              = mapLookup P s.rx_transfer_map := by
          cases op with
          | sub r k p sz f =>
            exact mapLookup_insert_ne P p f s.rx_transfer_map (by simpa [RegOp.port] using hp)
          | unsub r k p =>
            exact mapLookup_erase_ne P p s.rx_transfer_map (by simpa [RegOp.port] using hp)
        simp [lastOpOn, hl, hp, registryAfter, hlookup]

theorem applyRegOps_keys_nodup (ops : List RegOp) :
    ∀ s : NodeState, (mapKeys s.rx_transfer_map).Nodup →
    (mapKeys (applyRegOps ops s).rx_transfer_map).Nodup := by
  induction ops with
  | nil => intro s h; exact h
  | cons op rest ih =>
    intro s h
    refine ih (applyRegOp op s) ?_
    cases op with
    | sub r k p sz f => exact mapKeys_nodup_insert p f s.rx_transfer_map h
    | unsub r k p => exact mapKeys_nodup_erase p s.rx_transfer_map h

/-- C7: after any sequence of subscribe/unsubscribe calls starting from the
freshly constructed node, the registry holds an entry for port `P` exactly
when the most recent operation on `P` was a subscribe, that entry holds the
callback of that most recent subscribe (a second subscribe overwrites the
prior registration), and the registry's port ids remain unique keys. -/
theorem registry_reflects_most_recent_op (ops : List RegOp) (P node_id : Nat) :
    mapLookup P (applyRegOps ops (NodeState.mk0 node_id)).rx_transfer_map
      = registryAfter none (lastOpOn P ops)
    ∧ (mapKeys (applyRegOps ops (NodeState.mk0 node_id)).rx_transfer_map).Nodup :=
  ⟨applyRegOps_lookup ops P (NodeState.mk0 node_id),
   applyRegOps_keys_nodup ops (NodeState.mk0 node_id) (by simp [NodeState.mk0, mapKeys])⟩

/-- The frame argument of a `canardRxAccept` call event. -/
def acceptedFrame : Event → Option CanardFrame
  | .codecAccept f _ => some f
  | _ => none

theorem receiveOne_queues (a : Option CanardRxTransfer) (frame : CanardFrame)
    (ts : Nat) (s : NodeState) :
    (receiveOne a frame ts s).1.tx_queue = s.tx_queue
    ∧ (receiveOne a frame ts s).1.rx_queue = s.rx_queue := by
  cases a with
  | none => exact ⟨rfl, rfl⟩
  | some t =>
    cases hsub : mapLookup t.port_id s.rx_transfer_map with
    | none => simp [receiveOne, hsub]
    | some cb =>
      by_cases hk : t.transfer_kind = CanardTransferKind.Response
      · cases hm : mapLookup t.port_id s.tx_transfer_map with
        | none => simp [receiveOne, hsub, hk, hm]
        | some rid =>
          by_cases hid : rid = t.transfer_id <;>
            simp [receiveOne, hsub, hk, hm, hid, unsubscribe]
      · simp [receiveOne, hsub, hk]

theorem receiveOne_accept_events (a : Option CanardRxTransfer) (frame : CanardFrame)
    (ts : Nat) (s : NodeState) :
    (receiveOne a frame ts s).2.filterMap acceptedFrame = [frame] := by
  cases a with
  | none => simp [receiveOne, acceptedFrame]
  | some t =>
    cases hsub : mapLookup t.port_id s.rx_transfer_map with
    | none => simp [receiveOne, hsub, acceptedFrame]
    | some cb =>
      by_cases hk : t.transfer_kind = CanardTransferKind.Response
      · cases hm : mapLookup t.port_id s.tx_transfer_map with
        | none => simp [receiveOne, hsub, hk, hm, acceptedFrame]
        | some rid =>
          by_cases hid : rid = t.transfer_id <;>
            simp [receiveOne, hsub, hk, hm, hid, acceptedFrame]
      · simp [receiveOne, hsub, hk, acceptedFrame]

theorem handleReceiveGo_queues (micros : Nat → Nat)
    (accept : Nat → Option CanardRxTransfer) :
    ∀ (q : List RxQueueEntry) (k : Nat) (s : NodeState),
    (handleReceiveGo micros accept k q s).1.tx_queue = s.tx_queue
    ∧ (handleReceiveGo micros accept k q s).1.rx_queue = s.rx_queue := by
  intro q
  induction q with
  | nil => intro k s; exact ⟨rfl, rfl⟩
  | cons e rest ih =>
    intro k s
    have h1 := receiveOne_queues (accept k) (frameOfEntry e) (micros k) s
    have h2 := ih (k + 1) (receiveOne (accept k) (frameOfEntry e) (micros k) s).1
    simp only [handleReceiveGo]
    exact ⟨h2.1.trans h1.1, h2.2.trans h1.2⟩

theorem handleReceiveGo_accept_events (micros : Nat → Nat)
    (accept : Nat → Option CanardRxTransfer) :
    ∀ (q : List RxQueueEntry) (k : Nat) (s : NodeState),
    (handleReceiveGo micros accept k q s).2.filterMap acceptedFrame
      = q.map frameOfEntry := by
  intro q
  induction q with
  | nil => intro k s; simp [handleReceiveGo]
  | cons e rest ih =>
    intro k s
    simp only [handleReceiveGo, List.filterMap_append]
    rw [receiveOne_accept_events, ih]
    simp

theorem handle_receive_drains (micros : Nat → Nat)
    (accept : Nat → Option CanardRxTransfer) (s : NodeState) :
    (handle_receive micros accept s).1.rx_queue = []
    ∧ (handle_receive micros accept s).1.tx_queue = s.tx_queue
    ∧ (handle_receive micros accept s).2.filterMap acceptedFrame
        = s.rx_queue.map frameOfEntry := by
  refine ⟨?_, ?_, ?_⟩
  · exact (handleReceiveGo_queues micros accept s.rx_queue 0 _).2
  · exact (handleReceiveGo_queues micros accept s.rx_queue 0 _).1
  · exact handleReceiveGo_accept_events micros accept s.rx_queue 0 _

theorem transmitOne_rx_state (tf : Option (Nat → Bool)) (s : NodeState) :
    (transmitOne tf s).1.rx_queue = s.rx_queue
    ∧ (transmitOne tf s).1.rx_transfer_map = s.rx_transfer_map
    ∧ (transmitOne tf s).1.tx_transfer_map = s.tx_transfer_map := by
  cases tf with
  | none => exact ⟨rfl, rfl, rfl⟩
  | some f =>
    cases hq : s.tx_queue with
    | nil => simp [transmitOne, hq]
    | cons fr rest =>
      by_cases hf : f fr <;> simp [transmitOne, hq, hf]

theorem transmitOne_no_accept_events (tf : Option (Nat → Bool)) (s : NodeState) :
    (transmitOne tf s).2.2.filterMap acceptedFrame = [] := by
  cases tf with
  | none => rfl
  | some f =>
    cases hq : s.tx_queue with
    | nil => simp [transmitOne, hq]
    | cons fr rest =>
      by_cases hf : f fr <;> simp [transmitOne, hq, hf, acceptedFrame]

theorem handleTransmitGo_rx_queue (tf : Option (Nat → Bool)) :
    ∀ (fuel : Nat) (s : NodeState),
    (handleTransmitGo tf fuel s).1.rx_queue = s.rx_queue := by
  intro fuel
  induction fuel with
  | zero => intro s; rfl
  | succ fuel ih =>
    intro s
    simp only [handleTransmitGo]
    by_cases hok : (transmitOne tf s).2.1
    · simp only [hok, if_true]
      exact (ih _).trans (transmitOne_rx_state tf s).1
    · simp only [hok, if_false]
      exact (transmitOne_rx_state tf s).1

theorem handleTransmitGo_no_accept_events (tf : Option (Nat → Bool)) :
    ∀ (fuel : Nat) (s : NodeState),
    (handleTransmitGo tf fuel s).2.filterMap acceptedFrame = [] := by
  intro fuel
  induction fuel with
  | zero => intro s; rfl
  | succ fuel ih =>
    intro s
    simp only [handleTransmitGo]
    by_cases hok : (transmitOne tf s).2.1
    · simp only [hok, if_true, List.filterMap_append]
      rw [transmitOne_no_accept_events, ih]
      rfl
    · simp only [hok, if_false]
      exact transmitOne_no_accept_events tf s

theorem handleTransmitGo_drains (f : Nat → Bool) :
    ∀ (fuel : Nat) (s : NodeState), s.tx_queue.length ≤ fuel →
    (handleTransmitGo (some f) fuel s).1.tx_queue = []
    ∨ ∃ fr rest, (handleTransmitGo (some f) fuel s).1.tx_queue = fr :: rest
        ∧ f fr = false := by
  intro fuel
  induction fuel with
  | zero =>
    intro s hlen
    left
    simpa using List.length_eq_zero.1 (Nat.le_zero.1 hlen)
  | succ fuel ih =>
    intro s hlen
    cases hq : s.tx_queue with
    | nil => left; simp [handleTransmitGo, transmitOne, hq]
    | cons fr rest =>
      by_cases hf : f fr
      · have hstep : transmitOne (some f) s
            = ({ s with tx_queue := rest }, true,
               [Event.transmitCall fr, Event.memFree fr]) := by
          simp [transmitOne, hq, hf]
        have hlen' : rest.length ≤ fuel := by
          rw [hq] at hlen; simpa using hlen
        have := ih { s with tx_queue := rest } hlen'
        simpa [handleTransmitGo, hstep] using this
      · have hstep : transmitOne (some f) s = (s, false, [Event.transmitCall fr]) := by
          simp [transmitOne, hq, hf]
        right
        exact ⟨fr, rest, by simp [handleTransmitGo, hstep, hq], by simpa using hf⟩

/-- The event trace produced by transmitting a whole queue in order:
transmit-then-free for every frame, head first. -/
def txTrace (q : List Nat) : List Event :=
  q.foldr (fun fr acc => Event.transmitCall fr :: Event.memFree fr :: acc) []

theorem handleTransmitGo_all_true (g : Nat → Bool) (hall : ∀ x, g x = true) :
    ∀ (fuel : Nat) (s : NodeState), s.tx_queue.length ≤ fuel →
    (handleTransmitGo (some g) fuel s).1.tx_queue = []
    ∧ (handleTransmitGo (some g) fuel s).2 = txTrace s.tx_queue := by
  intro fuel
  induction fuel with
  | zero =>
    intro s hlen
    have hq : s.tx_queue = [] := List.length_eq_zero.1 (Nat.le_zero.1 hlen)
    exact ⟨by simpa using hq, by simp [handleTransmitGo, hq, txTrace]⟩
  | succ fuel ih =>
    intro s hlen
    cases hq : s.tx_queue with
    | nil => simp [handleTransmitGo, transmitOne, hq, txTrace]
    | cons fr rest =>
      have hstep : transmitOne (some g) s
          = ({ s with tx_queue := rest }, true,
             [Event.transmitCall fr, Event.memFree fr]) := by
        simp [transmitOne, hq, hall fr]
      have hlen' : rest.length ≤ fuel := by
        rw [hq] at hlen; simpa using hlen
      have := ih { s with tx_queue := rest } hlen'
      refine ⟨by simpa [handleTransmitGo, hstep] using this.1, ?_⟩
      simp [handleTransmitGo, hstep, this.2, txTrace, hq]

/-- C4: with a pending head frame, a busy transmit function makes
`transmitOne` return `false` with the egress queue untouched (no pop, no
free), so `handle_transmit` stops for the cycle without dropping the frame;
a transmit function that accepts the head pops and frees it and `transmitOne`
returns `true`; and a later `spin` with an always-succeeding transmit
function transmits that same frame (head first). -/
theorem transmit_backpressure (f : Nat → Bool) (fr : Nat) (rest : List Nat)
    (s : NodeState) (hq : s.tx_queue = fr :: rest) (hbusy : f fr = false) :
    transmitOne (some f) s = (s, false, [Event.transmitCall fr])
    ∧ handle_transmit (some f) s = (s, [Event.transmitCall fr])
    ∧ (∀ g : Nat → Bool, g fr = true →
        transmitOne (some g) s
          = ({ s with tx_queue := rest }, true,
             [Event.transmitCall fr, Event.memFree fr]))
    ∧ (∀ (micros : Nat → Nat) (accept : Nat → Option CanardRxTransfer)
         (g : Nat → Bool), (∀ x, g x = true) →
        (spin micros accept (some g) s).2
          = (handle_receive micros accept s).2 ++ txTrace (fr :: rest)) := by
  have hstep : transmitOne (some f) s = (s, false, [Event.transmitCall fr]) := by
    simp [transmitOne, hq, hbusy]
  refine ⟨hstep, ?_, ?_, ?_⟩
  · rw [handle_transmit, hq]
    simp [handleTransmitGo, hstep]
  · intro g hg
    simp [transmitOne, hq, hg]
  · intro micros accept g hall
    have hq' : (handle_receive micros accept s).1.tx_queue = fr :: rest :=
      ((handle_receive_drains micros accept s).2.1).trans hq
    have hall' := handleTransmitGo_all_true g hall
      ((handle_receive micros accept s).1.tx_queue.length)
      (handle_receive micros accept s).1 le_rfl
    have hspin : (spin micros accept (some g) s).2
        = (handle_receive micros accept s).2
          ++ (handleTransmitGo (some g)
               ((handle_receive micros accept s).1.tx_queue.length)
               (handle_receive micros accept s).1).2 := rfl
    rw [hspin, hall'.2, hq']

theorem transmit_backpressure_witness :
    transmitOne (some (fun _ => false)) { NodeState.mk0 0 with tx_queue := [4, 6] }
      = ({ NodeState.mk0 0 with tx_queue := [4, 6] }, false, [Event.transmitCall 4])
    ∧ handle_transmit (some (fun _ => false)) { NodeState.mk0 0 with tx_queue := [4, 6] }
      = ({ NodeState.mk0 0 with tx_queue := [4, 6] }, [Event.transmitCall 4])
    ∧ (∀ g : Nat → Bool, g 4 = true →
        transmitOne (some g) { NodeState.mk0 0 with tx_queue := [4, 6] }
          = ({ NodeState.mk0 0 with tx_queue := [6] }, true,
             [Event.transmitCall 4, Event.memFree 4]))
    ∧ (∀ (micros : Nat → Nat) (accept : Nat → Option CanardRxTransfer)
         (g : Nat → Bool), (∀ x, g x = true) →
        (spin micros accept (some g) { NodeState.mk0 0 with tx_queue := [4, 6] }).2
          = (handle_receive micros accept { NodeState.mk0 0 with tx_queue := [4, 6] }).2
            ++ txTrace [4, 6]) :=
  transmit_backpressure (fun _ => false) 4 [6]
    { NodeState.mk0 0 with tx_queue := [4, 6] } rfl rfl

/-- C5: `spin` first drains the ingress buffer completely — the codec sees
exactly the buffered frames, rebuilt in FIFO order — and only then drains
the egress queue (no codec call happens during the transmit phase, and the
trace is the receive-phase trace followed by the transmit-phase trace),
stopping only when the egress queue is empty or the transmit function
reports busy on the head frame. -/
theorem spin_ingress_then_egress (micros : Nat → Nat)
    (accept : Nat → Option CanardRxTransfer) (f : Nat → Bool) (s : NodeState) :
    (spin micros accept (some f) s).1.rx_queue = []
    ∧ (spin micros accept (some f) s).2
        = (handle_receive micros accept s).2
          ++ (handle_transmit (some f) (handle_receive micros accept s).1).2
    ∧ (handle_receive micros accept s).2.filterMap acceptedFrame
        = s.rx_queue.map frameOfEntry
    ∧ (handle_transmit (some f)
        (handle_receive micros accept s).1).2.filterMap acceptedFrame = []
    ∧ ((spin micros accept (some f) s).1.tx_queue = []
       ∨ ∃ fr rest, (spin micros accept (some f) s).1.tx_queue = fr :: rest
           ∧ f fr = false) := by
  have hr := handle_receive_drains micros accept s
  refine ⟨?_, rfl, hr.2.2, handleTransmitGo_no_accept_events _ _ _, ?_⟩
  · have hsp : (spin micros accept (some f) s).1
        = (handleTransmitGo (some f)
            ((handle_receive micros accept s).1.tx_queue.length)
            (handle_receive micros accept s).1).1 := rfl
    rw [hsp, handleTransmitGo_rx_queue]
    exact hr.1
  · exact handleTransmitGo_drains f
      ((handle_receive micros accept s).1.tx_queue.length)
      (handle_receive micros accept s).1 le_rfl

/-- C8 (divergence witness): `handle_receive` dequeues the stored arrival
timestamp but passes the current `micros()` value to `canardRxAccept`. With
one buffered frame captured at timestamp 5 and `micros()` returning 7, the
codec is called with timestamp 7 and never with the captured timestamp 5. -/
theorem handle_receive_timestamp_divergence :
    (handle_receive (fun _ => 7) (fun _ => none)
        { NodeState.mk0 0 with
            rx_queue := [⟨0, 0, [0, 0, 0, 0, 0, 0, 0, 0], 5⟩] }).2
      = [Event.codecAccept ⟨0, 0, [0, 0, 0, 0, 0, 0, 0, 0]⟩ 7]
    ∧ Event.codecAccept ⟨0, 0, [0, 0, 0, 0, 0, 0, 0, 0]⟩ 5 ∉
        (handle_receive (fun _ => 7) (fun _ => none)
            { NodeState.mk0 0 with
                rx_queue := [⟨0, 0, [0, 0, 0, 0, 0, 0, 0, 0], 5⟩] }).2 := by
  refine ⟨rfl, ?_⟩
  decide

end CyphalNode
